import Mathlib

set_option maxHeartbeats 1000000

/-!
Shallow embedding of `src/annotation.py` (maxent-srl).

Sentence strings are embedded as `List Char`, Python ints as `Int`
(offsets parsed by `int(...)` can in principle be any integer), and
fallible code returns `Option`: a `none` models an uncaught Python
exception propagating out of the function.

The data model mirrors the three namedtuples of the source.  The record
type for the `Annotation` namedtuple is here called `Annot` and the
inclusive `end` field is called `end_` (Lean reserves the word).
-/

structure Target where
  start : Int
  end_ : Int
  deriving DecidableEq

structure FrameElement where
  start : Int
  end_ : Int
  name : String
  deriving DecidableEq

structure Annot where
  id : String
  sent_id : String
  frame_name : String
  target : Target
  FE : List FrameElement
  deriving DecidableEq

/-- The two-pointer gap scan of `align_annotation_with_sentence`
(lines 134-142): while both cursors are in range, a character mismatch
records the original-string cursor `i` as a gap and advances only the
retokenized-string cursor; a match advances both. -/
def scanGaps : List Char → List Char → Nat → List Nat
  | [], _, _ => []
  | _ :: _, [], _ => []
  | c :: cs, d :: ds, i =>
    if c = d then scanGaps cs ds (i + 1) else i :: scanGaps (c :: cs) ds i

/-- Body of the `for i in xrange(len(gaps))` loop of `correct_pos`
(lines 147-150), with `k` the number of gaps already passed over: the
first gap strictly greater than `pos` stops the scan at `pos + k`;
exhausting the list yields `pos + len(gaps)` (the source's
`pos + i + 1` with `i` the last loop index). -/
def correctGo : List Nat → Int → Nat → Int
  | [], pos, k => pos + k
  | g :: gs, pos, k => if pos < (g : Int) then pos + k else correctGo gs pos (k + 1)

/-- Embedding of `correct_pos` of the source (lines 146-150).  When `gaps` is empty
the loop never runs and the trailing `return pos + i + 1` reads the
never-assigned local `i`, raising `UnboundLocalError`; this is the
`none` case. -/
def correct_pos (gaps : List Nat) (pos : Int) : Option Int :=
  if gaps.isEmpty then none else some (correctGo gaps pos 0)

/-- Correction of one `Target` (line 153): both offsets corrected
independently; any raised error propagates. -/
def correctTarget (gaps : List Nat) (t : Target) : Option Target :=
  match correct_pos gaps t.start, correct_pos gaps t.end_ with
  | some s, some e => some ⟨s, e⟩
  | _, _ => none

/-- Correction of the FE list (lines 154-156): each FrameElement's
offsets corrected independently, name kept. -/
def correctFEs (gaps : List Nat) : List FrameElement → Option (List FrameElement)
  | [] => some []
  | fe :: rest =>
    match correct_pos gaps fe.start, correct_pos gaps fe.end_ with
    | some s, some e => (correctFEs gaps rest).map (⟨s, e, fe.name⟩ :: ·)
    | _, _ => none

/-- Correction of one whole record (lines 152-158): new target, new FE
list, all other fields copied. -/
def correctAnn (gaps : List Nat) (a : Annot) : Option Annot :=
  match correctTarget gaps a.target, correctFEs gaps a.FE with
  | some t, some fes => some ⟨a.id, a.sent_id, a.frame_name, t, fes⟩
  | _, _ => none

/-- The loop over `annotations` (lines 152-158). -/
def alignList (gaps : List Nat) : List Annot → Option (List Annot)
  | [] => some []
  | a :: rest =>
    match correctAnn gaps a with
    | none => none
    | some b => (alignList gaps rest).map (b :: ·)

/-- The general path of `align_annotation_with_sentence` (everything
after the `sent == new_sent` fast path, lines 134-160). -/
def align_general (sent new_sent : List Char) (annotations : List Annot) :
    Option (List Annot) :=
  alignList (scanGaps sent new_sent 0) annotations

/-- Embedding of `align_annotation_with_sentence` (lines 116-160): fast path returns
the input list unchanged when the two strings are equal, otherwise the
gap scan and per-record correction run. -/
def align_annotation_with_sentence (sent new_sent : List Char)
    (annotations : List Annot) : Option (List Annot) :=
  if sent = new_sent then some annotations else align_general sent new_sent annotations

/-- Spec-side construction for the pure-insertion round trip (not code
of the repository): `buildInserted s ins i` forms the retokenized
string from `s` by inserting, in ascending order of position, each
character `c` with `(g, c) ∈ ins` immediately before the character of
`s` whose original index is `g` (the counter `i` is the original index
of the head of `s`; a position past the end appends at the end). -/
def buildInserted : List Char → List (Nat × Char) → Nat → List Char
  | s, [], _ => s
  | s, (g, c) :: rest, i =>
    s.take (g - i) ++ c :: buildInserted (s.drop (g - i)) rest g

/-- Model of an lxml element after the namespace-stripping transform:
tag name, attribute list (XML forbids duplicate attribute names, and
lookup takes the first entry), child elements in document order, and
text content (`none` models an empty element whose `.text` is the
Python `None`). -/
inductive XElem where
  | mk (tag : String) (attrib : List (String × String)) (children : List XElem)
      (text : Option String)

def XElem.tag : XElem → String
  | .mk t _ _ _ => t

def XElem.attrib : XElem → List (String × String)
  | .mk _ a _ _ => a

def XElem.children : XElem → List XElem
  | .mk _ _ c _ => c

def XElem.text : XElem → Option String
  | .mk _ _ _ t => t

/-- Python `elem.attrib[k]`: `none` models a raised `KeyError` at the
use sites below. -/
def lookupAttr (attrib : List (String × String)) (k : String) : Option String :=
  (attrib.find? (fun q => q.1 = k)).map Prod.snd

/-- Child elements with the given tag, in document order. -/
def childrenNamed (e : XElem) (nm : String) : List XElem :=
  e.children.filter (fun c => c.tag = nm)

/-- The xpath `layer[@name=nm]/label` (lines 82 and 92): the `label`
children of every `layer` child whose `name` attribute equals `nm`, in
document order. -/
def labelsOf (a : XElem) (nm : String) : List XElem :=
  (((childrenNamed a "layer").filter
      (fun l => lookupAttr l.attrib "name" = some nm)).map
    (fun l => childrenNamed l "label")).flatten

/-- The xpath `layer[@name="FE"]/label[not(@itype)]` (line 92): FE
labels that do not carry the null-instantiation marker attribute. -/
def feLabels (a : XElem) : List XElem :=
  (labelsOf a "FE").filter (fun l => lookupAttr l.attrib "itype" = none)

/-- One FE label (lines 93-96).  Outer `none`: a raised `KeyError`
(missing `end` or `name`) or `ValueError` (non-integer attribute)
aborts the parse; `some none`: the label lacks `start` and is skipped
silently; `some (some fe)`: a FrameElement is built. -/
def parseFE (label : XElem) : Option (Option FrameElement) :=
  match lookupAttr label.attrib "start" with
  | none => some none
  | some s =>
    match s.toInt? with
    | none => none
    | some sv =>
      match lookupAttr label.attrib "end" with
      | none => none
      | some e =>
        match e.toInt? with
        | none => none
        | some ev =>
          match lookupAttr label.attrib "name" with
          | none => none
          | some nm => some (some ⟨sv, ev, nm⟩)

/-- The FE loop (lines 91-96): left to right; skipped labels contribute
nothing; a raised error aborts. -/
def parseFEs : List XElem → Option (List FrameElement)
  | [] => some []
  | l :: ls =>
    match parseFE l with
    | none => none
    | some none => parseFEs ls
    | some (some fe) => (parseFEs ls).map (fe :: ·)

/-- One MANUAL annotationSet (lines 81-107).  Outer `none`: a raised
error aborts the whole parse; `some none`: the set is discarded
silently because its Target layer does not have exactly one label
(lines 83-86); `some (some ann)`: a record is built.  Python reads the
`ID` attribute before the target check, converts the target offsets,
runs the FE loop, and reads `frameName` last (at the empty-FE warning
of line 99 or at the construction of line 103); the empty-FE warning
itself only writes to stderr. -/
def parseAnnSet (sid : String) (a : XElem) : Option (Option Annot) :=
  match lookupAttr a.attrib "ID" with
  | none => none
  | some ann_id =>
    match labelsOf a "Target" with
    | [tn] =>
      match lookupAttr tn.attrib "start" with
      | none => none
      | some ts =>
        match ts.toInt? with
        | none => none
        | some tsv =>
          match lookupAttr tn.attrib "end" with
          | none => none
          | some te =>
            match te.toInt? with
            | none => none
            | some tev =>
              match parseFEs (feLabels a) with
              | none => none
              | some fes =>
                match lookupAttr a.attrib "frameName" with
                | none => none
                | some fn => some (some ⟨ann_id, sid, fn, ⟨tsv, tev⟩, fes⟩)
    | _ => some none

/-- The xpath `annotationSet[@status="MANUAL"]` (line 80). -/
def manualSets (sent : XElem) : List XElem :=
  (childrenNamed sent "annotationSet").filter
    (fun a => lookupAttr a.attrib "status" = some "MANUAL")

/-- The annotationSet loop of one sentence (lines 79-107). -/
def parseAnnSets (sid : String) : List XElem → Option (List Annot)
  | [] => some []
  | a :: rest =>
    match parseAnnSet sid a with
    | none => none
    | some none => parseAnnSets sid rest
    | some (some ann) => (parseAnnSets sid rest).map (ann :: ·)

/-- One `sentence` element (lines 76-109).  `none`: a raised error
(missing `ID`, missing `text` child, a text node without content, or
an error inside an annotationSet) aborts the parse; `some none`: the
sentence has no usable records and is dropped (line 108); otherwise a
(sentence text, records) pair is produced. -/
def parse_sentence (sent : XElem) : Option (Option (String × List Annot)) :=
  match lookupAttr sent.attrib "ID" with
  | none => none
  | some sid =>
    match (childrenNamed sent "text").head? with
    | none => none
    | some te =>
      match te.text with
      | none => none
      | some str =>
        match parseAnnSets sid (manualSets sent) with
        | none => none
        | some anns => some (if anns.isEmpty then none else some (str, anns))

/-- Embedding of `parse_fulltext` (lines 47-114), applied to the sequence of
`sentence` elements selected from the parsed document; the zero-result
warning of line 112 writes only to stderr. -/
def parse_fulltext : List XElem → Option (List (String × List Annot))
  | [] => some []
  | sent :: rest =>
    match parse_sentence sent with
    | none => none
    | some none => parse_fulltext rest
    | some (some r) => (parse_fulltext rest).map (r :: ·)

/-- Content written by `distribute_annotations`: a sentence text file
or a pickled record file (the serialization is kept opaque). -/
inductive FileContent where
  | txt (s : String)
  | ann (a : Annot)
  deriving DecidableEq

/-- Embedding of `distribute_annotations` (lines 162-196) as a write trace: the
(file name, content) writes performed, in order, and a flag that is
`false` when the run aborts with an uncaught exception — the
`anns[0]` IndexError raised for a record whose annotation list is
empty (line 187), which stops the whole run before that record's
sentence file is written.  Directory creation and the optional path
printing are I/O only and not modelled. -/
def distribute_annotations :
    List (String × List Annot) → List (String × FileContent) × Bool
  | [] => ([], true)
  | (_, []) :: _ => ([], false)
  | (sent, a :: tl) :: rest =>
    ((a.sent_id ++ ".txt", FileContent.txt sent)
        :: ((a :: tl).map (fun x => (x.id ++ ".ann", FileContent.ann x))
          ++ (distribute_annotations rest).1),
     (distribute_annotations rest).2)


@[simp] theorem XElem.tag_mk (t : String) (a : List (String × String))
    (c : List XElem) (tx : Option String) : (XElem.mk t a c tx).tag = t := rfl

@[simp] theorem XElem.attrib_mk (t : String) (a : List (String × String))
    (c : List XElem) (tx : Option String) : (XElem.mk t a c tx).attrib = a := rfl

@[simp] theorem XElem.children_mk (t : String) (a : List (String × String))
    (c : List XElem) (tx : Option String) : (XElem.mk t a c tx).children = c := rfl

@[simp] theorem XElem.text_mk (t : String) (a : List (String × String))
    (c : List XElem) (tx : Option String) : (XElem.mk t a c tx).text = tx := rfl

example : scanGaps "he says: I say: I love you".data "he says : I say : I love you".data 0 = [7, 14] := by decide

example : buildInserted "ab".data [(0, 'a')] 0 = "aab".data := by decide

example : buildInserted "he says: I say: I love you".data [(7, ' '), (14, ' ')] 0
    = "he says : I say : I love you".data := by decide

example : correct_pos [7, 14] 7 = some 8 := by decide

example : correct_pos [] 3 = none := by decide

/-- C3: evaluation of the code at the failing input.  A retokenized
string that extends the original only by a trailing inserted character
records no gap, and the alignment of a non-empty record list then fails
(the empty gap list makes `correct_pos` raise `UnboundLocalError`)
instead of succeeding with unchanged offsets as the claim states. -/
theorem align_trailing_insertion_crash :
    scanGaps "a".data "ab".data 0 = [] ∧
    align_annotation_with_sentence "a".data "ab".data
        [⟨"17", "s1", "Frame", ⟨0, 0⟩, []⟩] = none := by
  decide

/-- C4 counterexample: on equal strings with a non-empty record list
the general gap-scan algorithm does not reproduce the fast-path result:
it records no gaps and its correction function then fails, so the claim
that the fast path "must equal the general-algorithm result" is false
at this input. -/
theorem align_general_self_counterexample :
    align_annotation_with_sentence "a".data "a".data
        [⟨"9", "s9", "G", ⟨0, 0⟩, []⟩] = some [⟨"9", "s9", "G", ⟨0, 0⟩, []⟩] ∧
    align_general "a".data "a".data [⟨"9", "s9", "G", ⟨0, 0⟩, []⟩] = none := by
  decide

/-- C4 (amended): `align(s, s, anns) = anns` always holds via the fast
path, and the general gap-scan algorithm agrees with it when the record
list is empty (for a non-empty list the general algorithm fails on the
empty gap list, see the counterexample). -/
theorem align_self_fast_path (s : List Char) (anns : List Annot) :
    align_annotation_with_sentence s s anns = some anns ∧
    align_general s s [] = some [] := by
  constructor
  · simp [align_annotation_with_sentence]
  · rfl

theorem correctGo_sorted (gaps : List Nat) (pos : Int) :
    ∀ k : Nat, gaps.Pairwise (· ≤ ·) →
      correctGo gaps pos k = pos + k + gaps.countP (fun g : Nat => (g : Int) ≤ pos) := by
  induction gaps with
  | nil => intro k _; simp [correctGo]
  | cons g gs ih =>
    intro k hsort
    obtain ⟨hg, hs⟩ := List.pairwise_cons.mp hsort
    rw [correctGo]
    by_cases h : pos < (g : Int)
    · rw [if_pos h]
      have h0 : (g :: gs).countP (fun x : Nat => decide ((x : Int) ≤ pos)) = 0 := by
        apply List.countP_eq_zero.mpr
        intro x hx
        rcases List.mem_cons.mp hx with hx1 | hx2
        · subst hx1; simp; omega
        · have := hg x hx2; simp; omega
      rw [h0]
      simp
    · rw [if_neg h, ih (k + 1) hs, List.countP_cons]
      have hd : (decide ((g : Int) ≤ pos)) = true := by simp; omega
      rw [hd]
      simp only [if_true]
      push_cast
      ring

/-- C2 (amended): for an ascending recorded gap list, `correct_pos`
returns `pos + (number of gaps <= pos)` — i.e. `pos + k` where `k` is
the number of gaps encountered before the first gap strictly greater
than `pos`, and `pos + (total number of gaps)` when every gap is
`<= pos` — except that on an empty gap list the function raises
(`UnboundLocalError`) instead of returning. -/
theorem correct_pos_eq_countP (gaps : List Nat)
    (hsort : gaps.Pairwise (· ≤ ·)) (pos : Int) :
    correct_pos gaps pos
      = if gaps.isEmpty then none
        else some (pos + gaps.countP (fun g : Nat => (g : Int) ≤ pos)) := by
  unfold correct_pos
  by_cases h : gaps.isEmpty
  · rw [if_pos h, if_pos h]
  · rw [if_neg h, if_neg h, correctGo_sorted gaps pos 0 hsort]
    norm_num

/-- C2 witness: on the concrete ascending gap list `[7, 14]` the
theorem evaluates to `correct_pos [7, 14] 7 = some 8` (the gap at 7 is
counted because the comparison is strict). -/
theorem correct_pos_eq_countP_witness : correct_pos [7, 14] 7 = some 8 := by
  rw [correct_pos_eq_countP [7, 14] (by decide) 7]
  decide

/-- C2 counterexample: with the gap list `[7, 14]` actually recorded by
the scan of the doctest sentences, `correct_pos 7` returns `8`, not
`7 + (number of gaps < 7) = 7` as the claim's formula
`correct(pos) = pos + count(gaps < pos)` demands: a gap equal to `pos`
is counted, because the code's comparison `pos < gaps[i]` is strict. -/
theorem correct_pos_strict_counterexample :
    correct_pos (scanGaps "he says: I say: I love you".data
        "he says : I say : I love you".data 0) 7 = some 8 ∧
    correct_pos (scanGaps "he says: I say: I love you".data
          "he says : I say : I love you".data 0) 7
      ≠ some (7 + ((scanGaps "he says: I say: I love you".data
          "he says : I say : I love you".data 0).countP
            (fun g : Nat => (g : Int) < 7) : Int)) := by
  decide

/-- C5: aligning `"he says: I say: I love you"` against
`"he says : I say : I love you"` maps target Span(0,1) to itself and FE
spans (3,6), (7,7) to (3,6), (8,8); moreover on every offset `p < 14`
of the original string (which covers every offset of this record) the
correction leaves `p < 7` unchanged and shifts `7 <= p` by one. -/
theorem align_concrete_scenario :
    align_annotation_with_sentence "he says: I say: I love you".data
        "he says : I say : I love you".data
        [⟨"1", "1", "he", ⟨0, 1⟩, [⟨3, 6, "says"⟩, ⟨7, 7, ":"⟩]⟩]
      = some [⟨"1", "1", "he", ⟨0, 1⟩, [⟨3, 6, "says"⟩, ⟨8, 8, ":"⟩]⟩] ∧
    ((List.range 14).all fun p =>
      correct_pos (scanGaps "he says: I say: I love you".data
          "he says : I say : I love you".data 0) (p : Int)
        == some (if p < 7 then (p : Int) else (p : Int) + 1)) = true := by
  decide

theorem scanGaps_self : ∀ (s : List Char) (i : Nat), scanGaps s s i = []
  | [], _ => rfl
  | c :: cs, i => by simp [scanGaps, scanGaps_self cs (i + 1)]

theorem scanGaps_append_common (t : List Char) :
    ∀ (u v : List Char) (i : Nat),
      scanGaps (t ++ u) (t ++ v) i = scanGaps u v (i + t.length) := by
  induction t with
  | nil => intro u v i; simp
  | cons c ts ih =>
    intro u v i
    have harith : i + 1 + ts.length = i + (ts.length + 1) := by omega
    simp [scanGaps, ih, harith]

theorem scanGaps_buildInserted :
    ∀ (ins : List (Nat × Char)) (s : List Char) (i0 : Nat),
      List.Pairwise (fun q r => q.1 ≤ r.1) ins →
      (∀ gc ∈ ins, i0 ≤ gc.1 ∧ gc.1 < i0 + s.length ∧ gc.2 ≠ s.getD (gc.1 - i0) 'Z') →
      scanGaps s (buildInserted s ins i0) i0 = ins.map Prod.fst := by
  intro ins
  induction ins with
  | nil => intro s i0 _ _; simp [buildInserted, scanGaps_self]
  | cons gc rest ih =>
    obtain ⟨g, c⟩ := gc
    intro s i0 hsort hok
    obtain ⟨hgs, hrest⟩ := List.pairwise_cons.mp hsort
    obtain ⟨hge, hlt, hch⟩ := hok (g, c) (List.mem_cons_self _ _)
    have hsub : g - i0 < s.length := by omega
    have htl : (s.take (g - i0)).length = g - i0 := by
      rw [List.length_take]; omega
    have hsplit : s = s.take (g - i0) ++ s.drop (g - i0) :=
      (List.take_append_drop _ _).symm
    rw [buildInserted]
    nth_rewrite 1 [hsplit]
    rw [scanGaps_append_common, htl]
    have hidx : i0 + (g - i0) = g := by omega
    rw [hidx]
    rw [List.drop_eq_getElem_cons hsub]
    have hgd : s.getD (g - i0) 'Z' = s[g - i0] := by
      rw [List.getD_eq_getElem?_getD, List.getElem?_eq_getElem hsub]
      rfl
    rw [hgd] at hch
    simp only [scanGaps]
    rw [if_neg (Ne.symm hch)]
    rw [← List.drop_eq_getElem_cons hsub]
    rw [ih (s.drop (g - i0)) g hrest ?_]
    · rw [List.map_cons]
    · intro q hm
      have h1 := hgs q hm
      obtain ⟨ha, hb, hc2⟩ := hok q (List.mem_cons_of_mem _ hm)
      refine ⟨h1, ?_, ?_⟩
      · rw [List.length_drop]; omega
      · have hgd2 : (s.drop (g - i0)).getD (q.1 - g) 'Z' = s.getD (q.1 - i0) 'Z' := by
          rw [List.getD_eq_getElem?_getD, List.getElem?_drop, List.getD_eq_getElem?_getD]
          have harith2 : g - i0 + (q.1 - g) = q.1 - i0 := by omega
          rw [harith2]
        rw [hgd2]
        exact hc2

theorem buildInserted_getElem :
    ∀ (ins : List (Nat × Char)) (s : List Char) (i0 p : Nat),
      List.Pairwise (fun q r => q.1 ≤ r.1) ins →
      (∀ gc ∈ ins, i0 ≤ gc.1 ∧ gc.1 ≤ i0 + s.length) →
      p < s.length →
      (buildInserted s ins i0)[p + ins.countP (fun gc => gc.1 ≤ i0 + p)]? = s[p]? := by
  intro ins
  induction ins with
  | nil => intro s i0 p _ _ _; simp [buildInserted]
  | cons gc rest ih =>
    obtain ⟨g, c⟩ := gc
    intro s i0 p hsort hok hp
    obtain ⟨hgs, hrest⟩ := List.pairwise_cons.mp hsort
    obtain ⟨hge, hle⟩ := hok (g, c) (List.mem_cons_self _ _)
    have htl : (s.take (g - i0)).length = g - i0 := by
      rw [List.length_take]; omega
    rw [buildInserted]
    by_cases hcase : i0 + p < g
    · have hcnt : ((g, c) :: rest).countP (fun gc => gc.1 ≤ i0 + p) = 0 := by
        apply List.countP_eq_zero.mpr
        intro x hx
        rcases List.mem_cons.mp hx with h1 | h2
        · subst h1; simp only [decide_eq_true_eq]; omega
        · have := hgs x h2
          simp only [decide_eq_true_eq]
          omega
      rw [hcnt, Nat.add_zero]
      have hplt : p < (s.take (g - i0)).length := by rw [htl]; omega
      rw [List.getElem?_append_left hplt]
      exact List.getElem?_take_of_lt (by omega)
    · have hcnt : ((g, c) :: rest).countP (fun gc => gc.1 ≤ i0 + p)
          = rest.countP (fun gc => gc.1 ≤ i0 + p) + 1 := by
        rw [List.countP_cons]
        have hd : (decide (g ≤ i0 + p)) = true := by
          simp only [decide_eq_true_eq]
          omega
        rw [hd]
        simp
      rw [hcnt]
      have hlen_le : (s.take (g - i0)).length
          ≤ p + (rest.countP (fun gc => gc.1 ≤ i0 + p) + 1) := by
        rw [htl]; omega
      rw [List.getElem?_append_right hlen_le, htl]
      have hidx : p + (rest.countP (fun gc => gc.1 ≤ i0 + p) + 1) - (g - i0)
          = (p - (g - i0) + rest.countP (fun gc => gc.1 ≤ i0 + p)) + 1 := by omega
      rw [hidx, List.getElem?_cons_succ]
      have hpred : rest.countP (fun gc => gc.1 ≤ i0 + p)
          = rest.countP (fun gc => gc.1 ≤ g + (p - (g - i0))) := by
        have harith : i0 + p = g + (p - (g - i0)) := by omega
        rw [harith]
      rw [hpred]
      rw [ih (s.drop (g - i0)) g (p - (g - i0)) hrest ?_ ?_]
      · rw [List.getElem?_drop]
        have harith3 : g - i0 + (p - (g - i0)) = p := by omega
        rw [harith3]
      · intro q hm
        have h1 := hgs q hm
        obtain ⟨ha, hb⟩ := hok q (List.mem_cons_of_mem _ hm)
        refine ⟨h1, ?_⟩
        rw [List.length_drop]
        omega
      · rw [List.length_drop]
        omega

/-- C1 (amended): the pure-insertion round trip holds provided at least
one character is inserted, every insertion point lies strictly inside
the original string (no purely trailing construction, which would leave
the gap list empty and make `correct_pos` raise), and each inserted
character differs from the original character before which it is
inserted (so the greedy scan cannot misalign).  Then the scan recovers
the insertion points exactly, and correcting any valid original offset
`p` yields `p + (number of insertion points <= p)`, which is precisely
the offset in the retokenized string at which the character originally
at `p` now sits. -/
theorem correct_scan_insertion_roundtrip (s : List Char) (ins : List (Nat × Char))
    (hne : ins ≠ [])
    (hsort : List.Pairwise (fun q r => q.1 ≤ r.1) ins)
    (hok : ∀ gc ∈ ins, gc.1 < s.length ∧ gc.2 ≠ s.getD gc.1 'Z') :
    scanGaps s (buildInserted s ins 0) 0 = ins.map Prod.fst ∧
    ∀ p : Nat, p < s.length →
      correct_pos (scanGaps s (buildInserted s ins 0) 0) (p : Int)
        = some ((p : Int) + (ins.countP (fun gc => gc.1 ≤ p) : Int)) ∧
      (buildInserted s ins 0)[p + ins.countP (fun gc => gc.1 ≤ p)]? = s[p]? := by
  have hscan := scanGaps_buildInserted ins s 0 hsort (by
    intro gc hm
    obtain ⟨h1, h2⟩ := hok gc hm
    refine ⟨Nat.zero_le _, by omega, ?_⟩
    simpa using h2)
  refine ⟨hscan, ?_⟩
  intro p hp
  constructor
  · rw [hscan, correct_pos_eq_countP _ (List.pairwise_map.mpr hsort) _]
    have hemp : (ins.map Prod.fst).isEmpty = false := by
      cases ins with
      | nil => exact absurd rfl hne
      | cons x xs => rfl
    rw [hemp]
    simp only [Bool.false_eq_true, if_false]
    congr 2
    rw [List.countP_map]
    congr 1
    apply List.countP_congr
    intro gc _
    simp [Function.comp]
  · have h := buildInserted_getElem ins s 0 p hsort
      (fun gc hm => ⟨Nat.zero_le _, by have := (hok gc hm).1; omega⟩) hp
    simpa using h

/-- C1 witness: a concrete non-degenerate instance of the round trip,
inserting the character `x` before index 1 of `"ab"`: the scan recovers
the gap list `[1]` and the corrected offset of the original character
at index 0 is 0. -/
theorem correct_scan_insertion_roundtrip_witness :
    scanGaps "ab".data (buildInserted "ab".data [(1, 'x')] 0) 0 = [1] ∧
    correct_pos (scanGaps "ab".data (buildInserted "ab".data [(1, 'x')] 0) 0) 0
      = some 0 := by
  have h := correct_scan_insertion_roundtrip "ab".data [(1, 'x')]
    (by decide) (by decide) (by decide)
  refine ⟨h.1, ?_⟩
  have h2 := (h.2 0 (by decide)).1
  simpa using h2

/-- C1 counterexample: the round trip fails without further
assumptions.  Inserting the character `a` before index 0 of `"ab"`
gives `"aab"`, in which the character originally at index 0 sits at
offset `0 + (number of insertion points <= 0) = 1`; but the greedy scan
matches the inserted character instead and the correction returns 0.
And a purely trailing insertion (`b` appended to `"a"`) records no gap,
so the correction function fails (`UnboundLocalError`) instead of
returning any offset. -/
theorem insertion_roundtrip_counterexample :
    buildInserted "ab".data [(0, 'a')] 0 = "aab".data ∧
    correct_pos (scanGaps "ab".data (buildInserted "ab".data [(0, 'a')] 0) 0) 0
      ≠ some ((0 : Int) + (([((0 : Nat), 'a')].countP (fun gc => gc.1 ≤ 0) : Nat) : Int)) ∧
    correct_pos (scanGaps "a".data (buildInserted "a".data [(1, 'b')] 0) 0) 0 = none := by
  decide

theorem correctTarget_eq (gaps : List Nat) (t t2 : Target)
    (h : correctTarget gaps t = some t2) :
    t2 = ⟨(correct_pos gaps t.start).getD 0, (correct_pos gaps t.end_).getD 0⟩ := by
  unfold correctTarget at h
  cases h1 : correct_pos gaps t.start with
  | none => rw [h1] at h; simp at h
  | some v1 =>
    cases h2 : correct_pos gaps t.end_ with
    | none => rw [h1, h2] at h; simp at h
    | some v2 =>
      rw [h1, h2] at h
      simp only [Option.some.injEq] at h
      simp [← h]

theorem correctFEs_eq (gaps : List Nat) :
    ∀ (fes res : List FrameElement), correctFEs gaps fes = some res →
      res = fes.map (fun fe =>
        ⟨(correct_pos gaps fe.start).getD 0, (correct_pos gaps fe.end_).getD 0,
         fe.name⟩) := by
  intro fes
  induction fes with
  | nil =>
    intro res h
    simp only [correctFEs, Option.some.injEq] at h
    simp [← h]
  | cons fe rest ih =>
    intro res h
    simp only [correctFEs] at h
    cases h1 : correct_pos gaps fe.start with
    | none => rw [h1] at h; simp at h
    | some v1 =>
      cases h2 : correct_pos gaps fe.end_ with
      | none => rw [h1, h2] at h; simp at h
      | some v2 =>
        rw [h1, h2] at h
        cases h3 : correctFEs gaps rest with
        | none => rw [h3] at h; simp at h
        | some bs =>
          rw [h3] at h
          simp only [Option.map_some', Option.some.injEq] at h
          rw [← h, List.map_cons, ← ih bs h3]
          simp [h1, h2]

theorem correctAnn_eq (gaps : List Nat) (a b : Annot)
    (h : correctAnn gaps a = some b) :
    b = ⟨a.id, a.sent_id, a.frame_name,
         ⟨(correct_pos gaps a.target.start).getD 0,
          (correct_pos gaps a.target.end_).getD 0⟩,
         a.FE.map (fun fe =>
           ⟨(correct_pos gaps fe.start).getD 0, (correct_pos gaps fe.end_).getD 0,
            fe.name⟩)⟩ := by
  unfold correctAnn at h
  cases h1 : correctTarget gaps a.target with
  | none => rw [h1] at h; simp at h
  | some t2 =>
    cases h2 : correctFEs gaps a.FE with
    | none => rw [h1, h2] at h; simp at h
    | some fes2 =>
      rw [h1, h2] at h
      simp only [Option.some.injEq] at h
      rw [← h, correctTarget_eq gaps a.target t2 h1, correctFEs_eq gaps a.FE fes2 h2]

theorem alignList_eq_map (gaps : List Nat) :
    ∀ (anns res : List Annot), alignList gaps anns = some res →
      res = anns.map (fun a =>
        ⟨a.id, a.sent_id, a.frame_name,
         ⟨(correct_pos gaps a.target.start).getD 0,
          (correct_pos gaps a.target.end_).getD 0⟩,
         a.FE.map (fun fe =>
           ⟨(correct_pos gaps fe.start).getD 0, (correct_pos gaps fe.end_).getD 0,
            fe.name⟩)⟩) := by
  intro anns
  induction anns with
  | nil =>
    intro res h
    simp only [alignList, Option.some.injEq] at h
    simp [← h]
  | cons a rest ih =>
    intro res h
    simp only [alignList] at h
    cases hca : correctAnn gaps a with
    | none => rw [hca] at h; simp at h
    | some b =>
      rw [hca] at h
      cases hrest : alignList gaps rest with
      | none => rw [hrest] at h; simp at h
      | some bs =>
        rw [hrest] at h
        simp only [Option.map_some', Option.some.injEq] at h
        rw [← h, List.map_cons, ← ih bs hrest, correctAnn_eq gaps a b hca]

/-- C8: on the general path (distinct strings) a successful alignment
rewrites only the Span offsets, each rewritten independently through
the position correction for the recorded gap list, and preserves every
other part of every record: id, sent_id, frame_name, and the number,
order and names of the FrameElements.  (The `getD 0` defaults are never
exercised: success of the alignment means every `correct_pos` call
returned a value.) -/
theorem align_rewrites_only_offsets (sent new_sent : List Char)
    (anns res : List Annot) (hne : sent ≠ new_sent)
    (h : align_annotation_with_sentence sent new_sent anns = some res) :
    res = anns.map (fun a =>
      ⟨a.id, a.sent_id, a.frame_name,
       ⟨(correct_pos (scanGaps sent new_sent 0) a.target.start).getD 0,
        (correct_pos (scanGaps sent new_sent 0) a.target.end_).getD 0⟩,
       a.FE.map (fun fe =>
         ⟨(correct_pos (scanGaps sent new_sent 0) fe.start).getD 0,
          (correct_pos (scanGaps sent new_sent 0) fe.end_).getD 0,
          fe.name⟩)⟩) := by
  unfold align_annotation_with_sentence at h
  rw [if_neg hne] at h
  exact alignList_eq_map (scanGaps sent new_sent 0) anns res h

/-- C8 witness: aligning `"ab"` with `"a b"` (gap list `[1]`) maps the
record with target (0,1) and one FE (0,0) named `x` to target (0,2)
with the FE and all non-offset fields unchanged. -/
theorem align_rewrites_only_offsets_witness :
    [(⟨"1", "s", "f", ⟨0, 2⟩, [⟨0, 0, "x"⟩]⟩ : Annot)]
      = ([(⟨"1", "s", "f", ⟨0, 1⟩, [⟨0, 0, "x"⟩]⟩ : Annot)]).map (fun a =>
        ⟨a.id, a.sent_id, a.frame_name,
         ⟨(correct_pos (scanGaps "ab".data "a b".data 0) a.target.start).getD 0,
          (correct_pos (scanGaps "ab".data "a b".data 0) a.target.end_).getD 0⟩,
         a.FE.map (fun fe =>
           ⟨(correct_pos (scanGaps "ab".data "a b".data 0) fe.start).getD 0,
            (correct_pos (scanGaps "ab".data "a b".data 0) fe.end_).getD 0,
            fe.name⟩)⟩) :=
  align_rewrites_only_offsets "ab".data "a b".data _ _ (by decide) (by decide)

theorem filter_middle_true {α : Type} (p : α → Bool) (a : α) (ha : p a = true)
    (xs ys : List α) :
    (xs ++ a :: ys).filter p = xs.filter p ++ a :: ys.filter p := by
  simp [List.filter_append, List.filter_cons, ha]

theorem filter_middle_false {α : Type} (p : α → Bool) (a : α) (ha : p a = false)
    (xs ys : List α) :
    (xs ++ a :: ys).filter p = xs.filter p ++ ys.filter p := by
  simp [List.filter_append, List.filter_cons, ha]

theorem parseFEs_skip (l : XElem) (hskip : parseFE l = some none) :
    ∀ (pre post : List XElem),
      parseFEs (pre ++ l :: post) = parseFEs (pre ++ post) := by
  intro pre
  induction pre with
  | nil =>
    intro post
    simp [parseFEs, hskip]
  | cons x xs ih =>
    intro post
    simp only [List.cons_append, parseFEs, List.append_eq, ih]

theorem parseFEs_abort (l : XElem) (habort : parseFE l = none) :
    ∀ (pre post : List XElem), parseFEs (pre ++ l :: post) = none := by
  intro pre
  induction pre with
  | nil =>
    intro post
    simp [parseFEs, habort]
  | cons x xs ih =>
    intro post
    simp only [List.cons_append, parseFEs, List.append_eq, ih, Option.map_none']
    cases parseFE x with
    | none => rfl
    | some o =>
      cases o with
      | none => rfl
      | some fe => rfl

theorem parseFEs_append :
    ∀ (xs ys : List XElem),
      parseFEs (xs ++ ys)
        = (parseFEs xs).bind (fun u => (parseFEs ys).map (fun v => u ++ v)) := by
  intro xs
  induction xs with
  | nil =>
    intro ys
    simp only [List.nil_append, parseFEs, Option.some_bind]
    cases parseFEs ys <;> simp
  | cons x xs2 ih =>
    intro ys
    simp only [List.cons_append, parseFEs, List.append_eq, ih]
    cases parseFE x with
    | none => rfl
    | some o =>
      cases o with
      | none => rfl
      | some fe =>
        cases parseFEs xs2 with
        | none => rfl
        | some u =>
          cases parseFEs ys with
          | none => rfl
          | some v => simp

theorem parseAnnSets_skip (sid : String) (a : XElem)
    (hskip : parseAnnSet sid a = some none) :
    ∀ (pre post : List XElem),
      parseAnnSets sid (pre ++ a :: post) = parseAnnSets sid (pre ++ post) := by
  intro pre
  induction pre with
  | nil =>
    intro post
    simp [parseAnnSets, hskip]
  | cons x xs ih =>
    intro post
    simp only [List.cons_append, parseAnnSets, List.append_eq, ih]

/-- C6: a MANUAL annotationSet whose Target layer has zero label
children, or two or more, is discarded entirely: the per-set parser
returns the silent skip (no error is raised; the schema-required `ID`
attribute is assumed present, since Python reads it before the target
check), and parsing a sentence containing such a set yields exactly the
result of parsing the sentence with that set removed — the set is
absent from the output, not present with a default target. -/
theorem parse_discards_multi_target
    (tg : String) (att : List (String × String)) (tx : Option String)
    (pre post : List XElem) (a : XElem) (sid : String)
    (htag : a.tag = "annotationSet")
    (hstat : lookupAttr a.attrib "status" = some "MANUAL")
    (hid : (lookupAttr a.attrib "ID").isSome)
    (htl : (labelsOf a "Target").length ≠ 1) :
    parseAnnSet sid a = some none ∧
    parse_sentence (XElem.mk tg att (pre ++ a :: post) tx)
      = parse_sentence (XElem.mk tg att (pre ++ post) tx) := by
  have hps : ∀ s : String, parseAnnSet s a = some none := by
    intro s
    obtain ⟨i, hi⟩ := Option.isSome_iff_exists.mp hid
    unfold parseAnnSet
    rw [hi]
    cases htls : labelsOf a "Target" with
    | nil => rfl
    | cons t ts =>
      cases ts with
      | nil =>
        exfalso
        apply htl
        rw [htls]
        rfl
      | cons t2 ts2 => rfl
  refine ⟨hps sid, ?_⟩
  have htext : childrenNamed (XElem.mk tg att (pre ++ a :: post) tx) "text"
      = childrenNamed (XElem.mk tg att (pre ++ post) tx) "text" := by
    unfold childrenNamed
    simp only [XElem.children]
    rw [filter_middle_false _ a (by simp [htag]) pre post, List.filter_append]
  have hsets : ∀ s : String,
      parseAnnSets s (manualSets (XElem.mk tg att (pre ++ a :: post) tx))
        = parseAnnSets s (manualSets (XElem.mk tg att (pre ++ post) tx)) := by
    intro s
    unfold manualSets childrenNamed
    simp only [XElem.children]
    rw [filter_middle_true _ a (by simp [htag]) pre post]
    rw [filter_middle_true _ a (by simp [hstat])]
    rw [parseAnnSets_skip s a (hps s)]
    rw [List.filter_append, List.filter_append]
  unfold parse_sentence
  simp only [XElem.attrib]
  rw [htext]
  simp only [hsets]

/-- C6 witness: a sentence with a text child, one well-formed MANUAL
annotationSet, and one MANUAL annotationSet whose Target layer has no
label: the malformed set is skipped without error and removing it from
the sentence leaves the parse result unchanged. -/
theorem parse_discards_multi_target_witness :
    parseAnnSet "s1"
        (XElem.mk "annotationSet" [("status", "MANUAL"), ("ID", "7")]
          [XElem.mk "layer" [("name", "Target")] [] none] none) = some none ∧
    parse_sentence (XElem.mk "sentence" [("ID", "s1")]
        ([XElem.mk "text" [] [] (some "hello"),
          XElem.mk "annotationSet"
            [("status", "MANUAL"), ("ID", "2"), ("frameName", "Giving")]
            [XElem.mk "layer" [("name", "Target")]
              [XElem.mk "label" [("start", "0"), ("end", "1")] [] none] none,
             XElem.mk "layer" [("name", "FE")]
              [XElem.mk "label" [("start", "0"), ("end", "1"), ("name", "Donor")]
                [] none] none] none]
          ++ XElem.mk "annotationSet" [("status", "MANUAL"), ("ID", "7")]
              [XElem.mk "layer" [("name", "Target")] [] none] none :: []) none)
      = parse_sentence (XElem.mk "sentence" [("ID", "s1")]
        ([XElem.mk "text" [] [] (some "hello"),
          XElem.mk "annotationSet"
            [("status", "MANUAL"), ("ID", "2"), ("frameName", "Giving")]
            [XElem.mk "layer" [("name", "Target")]
              [XElem.mk "label" [("start", "0"), ("end", "1")] [] none] none,
             XElem.mk "layer" [("name", "FE")]
              [XElem.mk "label" [("start", "0"), ("end", "1"), ("name", "Donor")]
                [] none] none] none]
          ++ []) none) :=
  parse_discards_multi_target "sentence" [("ID", "s1")] none
    [XElem.mk "text" [] [] (some "hello"),
     XElem.mk "annotationSet"
       [("status", "MANUAL"), ("ID", "2"), ("frameName", "Giving")]
       [XElem.mk "layer" [("name", "Target")]
         [XElem.mk "label" [("start", "0"), ("end", "1")] [] none] none,
        XElem.mk "layer" [("name", "FE")]
         [XElem.mk "label" [("start", "0"), ("end", "1"), ("name", "Donor")]
           [] none] none] none] []
    (XElem.mk "annotationSet" [("status", "MANUAL"), ("ID", "7")]
      [XElem.mk "layer" [("name", "Target")] [] none] none) "s1"
    rfl rfl rfl (by decide)

/-- C7: an FE-layer label that carries the null-instantiation marker
attribute `itype`, or that lacks a `start` attribute, never appears in
the output FE sequence, regardless of its other attributes: parsing an
annotationSet containing such a label yields exactly the result of
parsing the set with that label removed (a marked label is excluded by
the xpath filter `label[not(@itype)]`; a start-less label is skipped by
the FE loop). -/
theorem parse_filters_null_instantiation
    (atg : String) (aatt : List (String × String)) (atx : Option String)
    (cpre cpost : List XElem)
    (latt : List (String × String)) (ltx : Option String)
    (lpre lpost : List XElem) (l : XElem) (sid : String)
    (hlay : lookupAttr latt "name" = some "FE")
    (hltag : l.tag = "label")
    (hnull : (lookupAttr l.attrib "itype").isSome ∨
      lookupAttr l.attrib "start" = none) :
    parseAnnSet sid
        (XElem.mk atg aatt
          (cpre ++ XElem.mk "layer" latt (lpre ++ l :: lpost) ltx :: cpost) atx)
      = parseAnnSet sid
        (XElem.mk atg aatt
          (cpre ++ XElem.mk "layer" latt (lpre ++ lpost) ltx :: cpost) atx) := by
  have hTarget :
      labelsOf (XElem.mk atg aatt
          (cpre ++ XElem.mk "layer" latt (lpre ++ l :: lpost) ltx :: cpost) atx)
        "Target"
      = labelsOf (XElem.mk atg aatt
          (cpre ++ XElem.mk "layer" latt (lpre ++ lpost) ltx :: cpost) atx)
        "Target" := by
    unfold labelsOf childrenNamed
    simp [hlay]
  have hfe :
      parseFEs (feLabels (XElem.mk atg aatt
          (cpre ++ XElem.mk "layer" latt (lpre ++ l :: lpost) ltx :: cpost) atx))
      = parseFEs (feLabels (XElem.mk atg aatt
          (cpre ++ XElem.mk "layer" latt (lpre ++ lpost) ltx :: cpost) atx)) := by
    by_cases hit : (lookupAttr l.attrib "itype").isSome
    · obtain ⟨v, hv⟩ := Option.isSome_iff_exists.mp hit
      have hlists : feLabels (XElem.mk atg aatt
            (cpre ++ XElem.mk "layer" latt (lpre ++ l :: lpost) ltx :: cpost) atx)
          = feLabels (XElem.mk atg aatt
            (cpre ++ XElem.mk "layer" latt (lpre ++ lpost) ltx :: cpost) atx) := by
        unfold feLabels labelsOf childrenNamed
        simp [hlay, hltag, hv]
      rw [hlists]
    · have hnone : lookupAttr l.attrib "itype" = none :=
        Option.not_isSome_iff_eq_none.mp hit
      have hst : lookupAttr l.attrib "start" = none := by
        rcases hnull with h | h
        · exact absurd h hit
        · exact h
      have hskip : parseFE l = some none := by
        unfold parseFE
        rw [hst]
      have hcons : ∀ Z : List XElem, parseFEs (l :: Z) = parseFEs Z := by
        intro Z
        simp [parseFEs, hskip]
      unfold feLabels labelsOf childrenNamed
      simp [hlay, hltag, hnone, parseFEs_append, hcons]
  unfold parseAnnSet
  simp only [XElem.attrib_mk]
  rw [hTarget, hfe]

/-- C7 witness: removing an FE label that carries `itype` (a null
instantiation, here with a `name` but no span) from a concrete
annotationSet leaves the parse result unchanged. -/
theorem parse_filters_null_instantiation_witness :
    parseAnnSet "s"
        (XElem.mk "annotationSet"
          [("status", "MANUAL"), ("ID", "3"), ("frameName", "F")]
          ([XElem.mk "layer" [("name", "Target")]
              [XElem.mk "label" [("start", "0"), ("end", "1")] [] none] none]
            ++ XElem.mk "layer" [("name", "FE")]
                ([XElem.mk "label"
                    [("start", "2"), ("end", "3"), ("name", "Donor")] [] none]
                  ++ XElem.mk "label" [("itype", "DNI"), ("name", "Goal")] [] none
                    :: []) none :: []) none)
      = parseAnnSet "s"
        (XElem.mk "annotationSet"
          [("status", "MANUAL"), ("ID", "3"), ("frameName", "F")]
          ([XElem.mk "layer" [("name", "Target")]
              [XElem.mk "label" [("start", "0"), ("end", "1")] [] none] none]
            ++ XElem.mk "layer" [("name", "FE")]
                ([XElem.mk "label"
                    [("start", "2"), ("end", "3"), ("name", "Donor")] [] none]
                  ++ []) none :: []) none) :=
  parse_filters_null_instantiation "annotationSet"
    [("status", "MANUAL"), ("ID", "3"), ("frameName", "F")] none
    [XElem.mk "layer" [("name", "Target")]
      [XElem.mk "label" [("start", "0"), ("end", "1")] [] none] none] []
    [("name", "FE")] none
    [XElem.mk "label" [("start", "2"), ("end", "3"), ("name", "Donor")] [] none] []
    (XElem.mk "label" [("itype", "DNI"), ("name", "Goal")] [] none) "s"
    rfl rfl (Or.inl rfl)

/-- C9: an FE label with no `itype` marker and a `start` attribute but
no `end` attribute (or no `name` attribute) is not silently skipped:
the attribute lookup raises `KeyError`, which aborts the FE loop and
the whole parse — an annotationSet whose FE labels contain such a label
never yields a parsed record — rather than dropping just that
FrameElement. -/
theorem parseFE_missing_attr_aborts (l : XElem)
    (hitype : lookupAttr l.attrib "itype" = none)
    (hstart : (lookupAttr l.attrib "start").isSome)
    (hmiss : lookupAttr l.attrib "end" = none ∨
      lookupAttr l.attrib "name" = none) :
    parseFE l = none ∧
    (∀ (pre post : List XElem), parseFEs (pre ++ l :: post) = none) ∧
    (∀ (sid : String) (a : XElem), l ∈ feLabels a → ∀ (r : Annot),
      parseAnnSet sid a ≠ some (some r)) := by
  obtain ⟨s, hs⟩ := Option.isSome_iff_exists.mp hstart
  have h1 : parseFE l = none := by
    unfold parseFE
    simp only [hs]
    cases hti : s.toInt? with
    | none => simp only [hti]
    | some sv =>
      simp only [hti]
      rcases hmiss with he | hn
      · simp only [he]
      · cases he2 : lookupAttr l.attrib "end" with
        | none => simp only [he2]
        | some e =>
          simp only [he2]
          cases hti2 : e.toInt? with
          | none => simp only [hti2]
          | some ev => simp only [hti2, hn]
  refine ⟨h1, parseFEs_abort l h1, ?_⟩
  intro sid a hmem r
  obtain ⟨xs, ys, hsplit⟩ := List.append_of_mem hmem
  have hab : parseFEs (feLabels a) = none := by
    rw [hsplit]
    exact parseFEs_abort l h1 xs ys
  unfold parseAnnSet
  cases hq1 : lookupAttr a.attrib "ID" with
  | none => simp
  | some i =>
    simp only [hq1]
    cases hq2 : labelsOf a "Target" with
    | nil => simp
    | cons tn ts =>
      cases ts with
      | cons t2 ts2 => simp
      | nil =>
        cases hq3 : lookupAttr tn.attrib "start" with
        | none => simp [hq3]
        | some s1 =>
          simp only [hq3]
          cases hq4 : s1.toInt? with
          | none => simp [hq4]
          | some v1 =>
            simp only [hq4]
            cases hq5 : lookupAttr tn.attrib "end" with
            | none => simp [hq5]
            | some s2 =>
              simp only [hq5]
              cases hq6 : s2.toInt? with
              | none => simp [hq6]
              | some v2 => simp [hq6, hab]

/-- C9 witness: a label with `start` but neither `end` nor `name`
aborts the FE parse instead of being skipped. -/
theorem parseFE_missing_attr_aborts_witness :
    parseFE (XElem.mk "label" [("start", "1")] [] none) = none ∧
    parseFEs [XElem.mk "label" [("start", "1")] [] none] = none := by
  have h := parseFE_missing_attr_aborts (XElem.mk "label" [("start", "1")] [] none)
    rfl rfl (Or.inl rfl)
  refine ⟨h.1, ?_⟩
  have h2 := h.2.1 [] []
  simpa using h2

/-- C10: `distribute_annotations` reads the `sent_id` for a record's
sentence file from the record's first annotation (second conjunct), so
a record with an empty annotation list raises IndexError there: the run
stops with exactly the writes of the preceding records, before writing
anything for that sentence (first conjunct). -/
theorem distribute_empty_record_fails :
    (∀ (pre : List (String × List Annot)) (s : String)
        (post : List (String × List Annot)),
      distribute_annotations (pre ++ (s, []) :: post)
        = ((distribute_annotations pre).1, false)) ∧
    (∀ (txt : String) (a : Annot) (tl : List Annot)
        (rest : List (String × List Annot)),
      distribute_annotations ((txt, a :: tl) :: rest)
        = ((a.sent_id ++ ".txt", FileContent.txt txt)
            :: ((a :: tl).map (fun x => (x.id ++ ".ann", FileContent.ann x))
              ++ (distribute_annotations rest).1),
           (distribute_annotations rest).2)) := by
  constructor
  · intro pre
    induction pre with
    | nil => intro s post; rfl
    | cons r rs ih =>
      intro s post
      obtain ⟨txt, anns⟩ := r
      cases anns with
      | nil => rfl
      | cons a tl =>
        simp only [List.cons_append, List.append_eq, distribute_annotations, ih]
  · intro txt a tl rest
    rfl
